import Mathlib

/-!
Verification development for the satring L402 service directory.

Python strings are modelled as `List Char`, byte strings as `List Nat`.
Python functions raising exceptions are modelled in `Except`; an
`HTTPException` raised by a FastAPI handler is the normal way a handler
reports an HTTP status, so it is modelled as an ordinary error value,
while unexpected exceptions (such as `ValueError` from `bytes.fromhex`)
use a separate constructor set.

Library primitives (SHA-256, HMAC, macaroon serialization, base64) are
modelled as components of a `Libs` record: the development never relies
on any property of the hash functions beyond determinism, and relies on
the serialization layer only through an explicit round-trip hypothesis
stated where needed.
-/

deriving instance DecidableEq for Except

set_option maxRecDepth 100000

namespace Satring

/-- Python `str`, modelled as a list of characters. -/
abbrev Str := List Char

/-- ASCII-only lowercasing (`A`-`Z` mapped to `a`-`z`, everything else
unchanged).  This is the fold SQLite applies inside case-insensitive
`LIKE` on the shipped backend; it is NOT Python `str.lower`, which also
folds non-ASCII letters. -/
def asciiLower (s : Str) : Str := s.map Char.toLower

/-- Python `str.lower` on a single code point.  Exact on the ASCII
range; outside it the model carries the non-ASCII mappings exercised in
this development (U+212A KELVIN SIGN lowers to `k`, U+0130 lowers to
the two code points `i` U+0307) and leaves other code points unchanged
(Python folds further non-ASCII letters; theorems whose truth depends
on the folding therefore restrict themselves to ASCII data, where the
model is exact). -/
def pyCharLower (c : Char) : List Char :=
  if c.toNat < 128 then [Char.toLower c]
  else if c = '\u212A' then ['k']
  else if c = '\u0130' then ['i', '\u0307']
  else [c]

/-- Python `str.lower()`, the full (multi-code-point) fold used by
`urlparse(...).hostname`. -/
def pyLower (s : Str) : Str := s.flatMap pyCharLower

/-- A string entirely in the ASCII range, where `pyLower` and
`asciiLower` agree exactly. -/
def isAsciiStr (s : Str) : Bool := s.all (fun c => c.toNat < 128)

/-- Model of Python `s.split(sep, 1)`: splits at the first occurrence of
`sep`, returning the part before and the part after (the part after keeps
any later occurrences, as with `maxsplit=1`).  `none` when `sep` does not
occur, matching `sep in s == False`. -/
def splitOnce (sep : Str) : Str → Option (Str × Str)
  | [] => none
  | c :: rest =>
    if sep.isPrefixOf (c :: rest) then some ([], (c :: rest).drop sep.length)
    else
      match splitOnce sep rest with
      | some (pre, post) => some (c :: pre, post)
      | none => none

/-- Hex digit value, as accepted by Python `bytes.fromhex`. -/
def hexDigit? (c : Char) : Option Nat :=
  if '0' ≤ c ∧ c ≤ '9' then some (c.toNat - '0'.toNat)
  else if 'a' ≤ c ∧ c ≤ 'f' then some (c.toNat - 'a'.toNat + 10)
  else if 'A' ≤ c ∧ c ≤ 'F' then some (c.toNat - 'A'.toNat + 10)
  else none

/-- Model of Python `bytes.fromhex`: pairs of hex digits; anything else
(odd length, a non-hex character) is a `ValueError`, modelled as `none`.
(Python additionally accepts whitespace between pairs, which this model
does not; no statement below depends on that acceptance.) -/
def bytes_fromhex : Str → Option (List Nat)
  | [] => some []
  | c1 :: c2 :: rest =>
    match hexDigit? c1, hexDigit? c2, bytes_fromhex rest with
    | some hi, some lo, some bs => some ((16 * hi + lo) :: bs)
    | _, _, _ => none
  | [_] => none

/-- Model of Python `str.encode()` at the level of the embedding: the
byte sequence standing for a string.  (Code points, which agree with
UTF-8 bytes on the ASCII data handled by the program.) -/
def strBytes (s : Str) : List Nat := s.map Char.toNat

/-- The ASCII whitespace stripped by Python `str.strip()` (Python also
strips some non-ASCII whitespace such as U+00A0; the challenges the
program stores and compares are hex strings, where this is immaterial). -/
def pyWs (c : Char) : Bool :=
  c = ' ' || c = '\t' || c = '\n' || c = '\x0d' || c = '\x0b' || c = '\x0c'

/-- Model of Python `str.strip()`. -/
def pyStrip (s : Str) : Str :=
  ((s.dropWhile pyWs).reverse.dropWhile pyWs).reverse

/-- A macaroon as held in memory by pymacaroons: location, identifier,
caveat identifiers in order, and the chained MAC signature. -/
structure Macaroon where
  location : Str
  identifier : Str
  caveats : List Str
  signature : Str
  deriving DecidableEq, Repr

/-- The library primitives the source code calls: `hashlib.sha256
(...).hexdigest()` on bytes, the HMAC used inside pymacaroons, and the
serialization layer (`Macaroon.serialize` + base64, and the inverse
`base64.b64decode` + `Macaroon.deserialize`, whose failure on malformed
input is modelled by `none`). -/
structure Libs where
  sha256 : List Nat → Str
  hmacFn : Str → Str → Str
  enc : Macaroon → Str
  dec : Str → Option Macaroon

/-- pymacaroons derives the signing key from the root key with a fixed
generator string, then chains HMACs over the identifier and each caveat.
Both minting and `Verifier.verify` compute exactly this chain. -/
def macChain (L : Libs) (key ident : Str) (cavs : List Str) : Str :=
  cavs.foldl L.hmacFn (L.hmacFn (L.hmacFn ("macaroons-key-generator".toList) key) ident)

/-- The fixed caveat text `payment_hash = ` (source: l402.py line 56). -/
def pcavMark : Str :=
  ['p', 'a', 'y', 'm', 'e', 'n', 't', '_', 'h', 'a', 's', 'h', ' ', '=', ' ']

/-- The macaroon built by `mint_macaroon` before serialization (source:
l402.py lines 50-56): location `satring`, identifier the payment hash,
one first-party caveat `payment_hash = <hash>`, signed with the root key. -/
def mkMacaroon (L : Libs) (key payment_hash : Str) : Macaroon :=
  { location := "satring".toList
    identifier := payment_hash
    caveats := [pcavMark ++ payment_hash]
    signature := macChain L key payment_hash [pcavMark ++ payment_hash] }

/-- `mint_macaroon` (l402.py lines 50-57): build, serialize, base64. -/
def mint_macaroon (L : Libs) (key payment_hash : Str) : Str :=
  L.enc (mkMacaroon L key payment_hash)

/-- Exceptions other than HTTPException that the modelled code can raise. -/
inductive PyEx where
  | valueError
  | indexError
  deriving DecidableEq, Repr

/-- The caveat scan of `verify_l402` (l402.py lines 71-78): find the first
caveat starting with `payment_hash = ` and return the part after the first
occurrence of `= ` (Python `cid.split("= ", 1)[1]`). -/
def extract_caveat_hash : List Str → Option Str
  | [] => none
  | cid :: rest =>
    if pcavMark.isPrefixOf cid then
      match splitOnce ['=', ' '] cid with
      | some (_, post) => some post
      | none => none
    else extract_caveat_hash rest

/-- The signature check of `verify_l402` (l402.py lines 83-90): a
`Verifier` with the single exact predicate `payment_hash = <hash>` must
find every caveat satisfied and the recomputed HMAC chain equal to the
stored signature; any failure raises inside the try block and yields
`False`. -/
def verifier_ok (L : Libs) (key : Str) (mac : Macaroon) (payment_hash : Str) : Bool :=
  mac.caveats.all (fun c => c == pcavMark ++ payment_hash) &&
    macChain L key mac.identifier mac.caveats == mac.signature

/-- `verify_l402` (l402.py lines 60-90).  The try block covers only the
base64 decode and deserialization (modelled by `L.dec`); `bytes.fromhex`
on line 68 is outside it, so an invalid `preimage_hex` raises
`ValueError` out of the function. -/
def verify_l402 (L : Libs) (key : Str) (macaroon_b64 preimage_hex : Str) :
    Except PyEx Bool :=
  match L.dec macaroon_b64 with
  | none => .ok false
  | some mac =>
    match bytes_fromhex preimage_hex with
    | none => .error .valueError
    | some preimage_bytes =>
      let expected_hash := L.sha256 preimage_bytes
      match extract_caveat_hash mac.caveats with
      | none => .ok false
      | some payment_hash =>
        if payment_hash = [] then .ok false
        else if expected_hash ≠ payment_hash then .ok false
        else .ok (verifier_ok L key mac payment_hash)

/-- Modelled from the spec: the `ConsumedPayment` table (not under src/;
only its importer `app/l402.py` is).  Per the spec it has `payment_hash`
as a 64-hex primary key whose unique index enforces exactly-once; the
ledger is modelled as the list of already-consumed hashes. -/
abbrev Ledger := List Str

/-- `check_and_consume_payment` (l402.py lines 25-32): insert the hash;
a duplicate violates the unique primary key, the `IntegrityError` is
swallowed, the transaction rolled back, and `False` returned. -/
def check_and_consume_payment (payment_hash : Str) (ledger : Ledger) :
    Bool × Ledger :=
  if ledger.contains payment_hash then (false, ledger)
  else (true, ledger ++ [payment_hash])

/-- An invoice as returned by `create_invoice` (l402.py lines 35-47). -/
structure Invoice where
  payment_hash : Str
  payment_request : Str
  deriving DecidableEq, Repr

/-- Outcome of the L402 guard: pass through, raise an HTTPException with
status and detail, or raise the 402 challenge (which also records the
price and memo the invoice was created with, and the
`WWW-Authenticate` header value). -/
inductive GuardOutcome where
  | authorized
  | httpError (status : Nat) (detail : Str)
  | challenge (price : Nat) (memo : Str) (status : Nat) (detail : Str)
      (wwwAuthenticate : Str)
  deriving DecidableEq, Repr

/-- Python `a or b` for strings: `b` when `a` is empty. -/
def pyOrStr (a b : Str) : Str := if a = [] then b else a

/-- The `WWW-Authenticate` header built by the 402 branch of
`require_l402` (l402.py lines 126-129). -/
def wwwAuthHeader (macaroon_b64 payment_request : Str) : Str :=
  "L402 macaroon=\"".toList ++ macaroon_b64 ++ "\", invoice=\"".toList ++
    payment_request ++ ['\"']

/-- `require_l402` (l402.py lines 93-131).  `request?` is `none` when no
request object was passed; otherwise it carries the value of the
`Authorization` header (`none` when the header is absent —
`headers.get("Authorization", "")` then yields the empty string).
`createInvoice` stands for the awaited `create_invoice` call, keyed by
the amount and memo it is invoked with.  The consumed-payment ledger is
threaded through to expose whether the guard touches it. -/
def require_l402 (L : Libs) (auth_root_key : Str)
    (request? : Option (Option Str)) (createInvoice : Nat → Str → Invoice)
    (auth_price_sats : Nat) (amount_sats : Option Nat) (memo : Option Str)
    (ledger : Ledger) : Except PyEx GuardOutcome × Ledger :=
  if auth_root_key = "test-mode".toList then (.ok .authorized, ledger)
  else
    match request? with
    | none => (.ok (.httpError 500 ("L402 requires request context".toList)), ledger)
    | some authHeader =>
      let auth := authHeader.getD []
      if ("L402 ".toList).isPrefixOf auth || ("LSAT ".toList).isPrefixOf auth then
        match splitOnce [' '] auth with
        | none => (.error .indexError, ledger)
        | some (_, token) =>
          match splitOnce [':'] token with
          | none => (.ok (.httpError 401 ("Invalid L402 token format".toList)), ledger)
          | some (macaroon_b64, preimage_hex) =>
            match verify_l402 L auth_root_key macaroon_b64 preimage_hex with
            | .error e => (.error e, ledger)
            | .ok true => (.ok .authorized, ledger)
            | .ok false =>
              (.ok (.httpError 401 ("Invalid L402 credentials".toList)), ledger)
      else
        let price := amount_sats.getD auth_price_sats
        let inv_memo :=
          match memo with
          | some m => pyOrStr m ("satring.com premium API access".toList)
          | none => "satring.com premium API access".toList
        let invoice_data := createInvoice price inv_memo
        let macaroon_b64 := mint_macaroon L auth_root_key invoice_data.payment_hash
        (.ok (.challenge price inv_memo 402 ("Payment Required".toList)
          (wwwAuthHeader macaroon_b64 invoice_data.payment_request)), ledger)

/-! ## URL parsing (model of `urllib.parse.urlparse` as used by the code) -/

/-- Characters allowed after the first in a URL scheme
(`urllib.parse.scheme_chars`). -/
def isSchemeChar (c : Char) : Bool :=
  c.isAlpha || c.isDigit || c = '+' || c = '-' || c = '.'

/-- The part of the URL after the scheme, when a well-formed scheme and
colon are present; otherwise the whole URL (model of the scheme split in
`urllib.parse.urlsplit`: first colon, part before it nonempty, starting
with a letter, all scheme characters). -/
def parseRest (url : Str) : Str :=
  match splitOnce [':'] url with
  | some (before, after) =>
    if (match before with | c :: _ => c.isAlpha | [] => false) &&
        before.all isSchemeChar then after
    else url
  | none => url

/-- `urlparse(url).netloc`: when the post-scheme part starts with `//`,
everything up to the next `/`, `?` or `#`; otherwise empty. -/
def urlparse_netloc (url : Str) : Str :=
  match parseRest url with
  | '/' :: '/' :: r => r.takeWhile (fun c => c ≠ '/' && c ≠ '?' && c ≠ '#')
  | _ => []

/-- `netloc.rpartition('@')[2]`: the part after the last `@` (the whole
string when there is none), dropping any userinfo. -/
def afterLastAt (s : Str) : Str := (s.reverse.takeWhile (· ≠ '@')).reverse

/-- The host part of the hostinfo: for a bracketed IPv6 literal the part
between `[` and `]`, otherwise everything before the first `:` (model of
the `_hostinfo` split in `urllib.parse`). -/
def hostOf (hostinfo : Str) : Str :=
  if hostinfo.contains '[' then
    (((hostinfo.dropWhile (· ≠ '[')).drop 1).takeWhile (· ≠ ']'))
  else hostinfo.takeWhile (· ≠ ':')

/-- The hostname before lowercasing. -/
def rawHost (url : Str) : Str := hostOf (afterLastAt (urlparse_netloc url))

/-- `urlparse(url).hostname or ""`: the host folded with Python
`str.lower()`, empty when the URL has none. -/
def urlparse_hostname (url : Str) : Str := pyLower (rawHost url)

/-- `extract_domain` (utils.py lines 33-35). -/
def extract_domain (url : Str) : Str := urlparse_hostname url

/-! ## SQL LIKE and the same-domain query -/

/-- SQL `LIKE` pattern matching: `%` matches any run of characters (the
rest of the pattern must match some suffix of the text), `_` any single
character, everything else itself. -/
def likeMatch : Str → Str → Bool
  | [], s => s.isEmpty
  | c :: p, s =>
    if c = '%' then s.tails.any (fun t => likeMatch p t)
    else
      match s with
      | [] => false
      | d :: s2 => (c == '_' || c == d) && likeMatch p s2

/-- SQLAlchemy `column.ilike(pattern)`: on the shipped SQLite backend
this compiles to `lower(text) LIKE lower(pattern)` with SQLite's
ASCII-only `lower()`. -/
def ilike (text pattern : Str) : Bool :=
  likeMatch (asciiLower pattern) (asciiLower text)

/-- A `services` row, narrowed to the columns the verified code touches
(models.py `Service`; timestamps are ticks, the challenge expiry a tick
count or NULL). -/
structure Service where
  id : Nat
  slug : Str
  url : Str
  status : Str
  edit_token_hash : Option Str
  domain_challenge : Option Str
  domain_challenge_expires_at : Option Nat
  domain_verified : Bool
  name : Str
  pricing_sats : Nat
  deriving DecidableEq, Repr

/-- `get_same_domain_services` (utils.py lines 38-45): extract the
domain, return `[]` when it is empty, otherwise run the broad
case-insensitive LIKE prefilter and post-filter on exact parsed
hostname equality.  The database is modelled as the ordered list of
rows; `select(Service).where(...)` keeps that order. -/
def get_same_domain_services (db : List Service) (url : Str) : List Service :=
  let domain := extract_domain url
  if domain = [] then []
  else
    (db.filter (fun s => ilike s.url ('%' :: (domain ++ ['%'])))).filter
      (fun s => extract_domain s.url == domain)

/-! ## Edit tokens -/

/-- `hash_token` (utils.py lines 25-26): SHA-256 hex digest of the
UTF-8 encoded token. -/
def hash_token (L : Libs) (token : Str) : Str := L.sha256 (strBytes token)

/-- `verify_edit_token` (utils.py lines 29-30): `hmac.compare_digest` is
constant-time equality of the two digests. -/
def verify_edit_token (L : Libs) (plaintext stored_hash : Str) : Bool :=
  hash_token L plaintext == stored_hash

/-! ## Origin-check middleware (main.py lines 50-69) -/

/-- What the middleware does with a request: block it with a 403, or let
it pass through to the application. -/
inductive OriginResult where
  | blocked (status : Nat) (detail : Str)
  | passedThrough
  deriving DecidableEq, Repr

/-- `OriginCheckMiddleware.dispatch` (main.py lines 57-69): on a mutating
method carrying a truthy `origin` header, compare
`urlparse(BASE_URL).netloc` with `urlparse(origin).netloc` and block on
mismatch (the JSON and HTML branches return the same status and text).
`origin?` is `none` when the header is absent; Python `if origin:` also
lets an empty header value through. -/
def origin_check (base_url : Str) (method : Str) (origin? : Option Str) :
    OriginResult :=
  if method ∈ ["POST".toList, "PUT".toList, "DELETE".toList, "PATCH".toList] then
    match origin? with
    | some origin =>
      if origin = [] then .passedThrough
      else if urlparse_netloc origin ≠ urlparse_netloc base_url then
        .blocked 403 ("Cross-origin request blocked".toList)
      else .passedThrough
    | none => .passedThrough
  else .passedThrough

/-! ## API route handlers (routes/api.py) -/

/-- An `HTTPException` raised by a handler. -/
structure HttpError where
  status : Nat
  detail : Str
  deriving DecidableEq, Repr

/-- The status literal for tombstoned rows. -/
def purgedLit : Str := "purged".toList

/-- `get_service_or_404` (api.py lines 292-302): first row whose slug
matches and whose status is not `purged`; 404 when there is none. -/
def get_service_or_404 (db : List Service) (slug : Str) : Except HttpError Service :=
  match db.find? (fun s => s.slug == slug && s.status != purgedLit) with
  | none => .error { status := 404, detail := "Service not found".toList }
  | some service => .ok service

/-- Modelled from the spec: `domain_root` is imported from `app.utils`
but absent from the copy of utils.py under src/; per the spec the verify
URL is `scheme://host[:port]/.well-known/satring-verify` derived from
the listing URL, so `domain_root` returns `scheme://host[:port]`. -/
def domain_root (url : Str) : Str :=
  (match splitOnce [':'] url with
   | some (before, _) =>
     if (match before with | c :: _ => c.isAlpha | [] => false) &&
         before.all isSchemeChar then asciiLower before
     else []
   | none => []) ++ "://".toList ++ urlparse_netloc url

/-- The environment a recover-verify request runs against:
`is_public_hostname` is imported from `app.utils` but absent from the
copy of utils.py under src/ — it performs DNS resolution, so it is kept
as an oracle telling whether a hostname resolves only to public
addresses; `fetchBody` is the outbound `httpx` GET of the well-known URL
(`none` models any transport failure or exception); `new_token` is the
value `generate_edit_token()` returns; `now` the current time in ticks. -/
structure RecoverEnv where
  is_public_hostname : Str → Bool
  fetchBody : Str → Option Str
  new_token : Str
  now : Nat

/-- The body of a successful recover-verify response. -/
structure RecoverOk where
  edit_token : Str
  affected_services : List Str
  deriving DecidableEq, Repr

/-- Result of a recover-verify request: the response, the database after
the request, and whether an outbound HTTP request was issued. -/
structure RecoverResult where
  response : Except HttpError RecoverOk
  db : List Service
  outboundRequest : Bool
  deriving Repr

/-- The challenge-expiry guard of `api_recover_verify` (api.py lines
500-505): Python `not service.domain_challenge` is true for NULL and for
the empty string, `not service.domain_challenge_expires_at` for NULL,
and the stored expiry must be strictly in the future. -/
def challengeInactive (s : Service) (now : Nat) : Bool :=
  match s.domain_challenge, s.domain_challenge_expires_at with
  | none, _ => true
  | some [], _ => true
  | some (_ :: _), none => true
  | some (_ :: _), some exp => exp ≤ now

/-- `api_recover_verify` (api.py lines 497-539).  After the challenge,
SSRF and fetched-body checks pass, every row returned by
`get_same_domain_services` gets the new token hash and
`domain_verified = True`; the recovering row additionally has its
challenge cleared; one commit covers everything.  Rows are identified by
their primary key `id`. -/
def api_recover_verify (L : Libs) (env : RecoverEnv) (db : List Service)
    (slug : Str) : RecoverResult :=
  match get_service_or_404 db slug with
  | .error e => ⟨.error e, db, false⟩
  | .ok service =>
    if challengeInactive service env.now then
      ⟨.error ⟨400, "No active challenge or challenge expired".toList⟩, db, false⟩
    else
      let verify_url := domain_root service.url ++ "/.well-known/satring-verify".toList
      let hostname := extract_domain service.url
      if hostname = [] || !env.is_public_hostname hostname then
        ⟨.error ⟨400, ("Cannot verify domain: hostname resolves to a private " ++
          "or unreachable address").toList⟩, db, false⟩
      else
        match env.fetchBody verify_url with
        | none => ⟨.error ⟨502, "Could not reach ".toList ++ verify_url⟩, db, true⟩
        | some body =>
          let fetched := pyStrip body
          if fetched ≠ service.domain_challenge.getD [] then
            ⟨.error ⟨403, "Challenge code does not match".toList⟩, db, true⟩
          else
            let new_hash := hash_token L env.new_token
            let domain_services := get_same_domain_services db service.url
            let db2 := db.map (fun s =>
              let s1 :=
                if domain_services.contains s then
                  { s with edit_token_hash := some new_hash, domain_verified := true }
                else s
              if s.id == service.id then
                { s1 with edit_token_hash := some new_hash, domain_verified := true,
                          domain_challenge := none,
                          domain_challenge_expires_at := none }
              else s1)
            ⟨.ok ⟨env.new_token, domain_services.map (·.slug)⟩, db2, true⟩

/-- The `ServiceUpdate` body, narrowed to the columns the embedding
tracks; `none` models an omitted field. -/
structure ServiceUpdate where
  name : Option Str
  pricing_sats : Option Nat
  deriving DecidableEq, Repr

/-- The field loop of `update_service` (api.py lines 447-450). -/
def applyUpdate (body : ServiceUpdate) (s : Service) : Service :=
  let s1 := match body.name with
    | some v => { s with name := v }
    | none => s
  match body.pricing_sats with
  | some v => { s1 with pricing_sats := v }
  | none => s1

/-- `update_service` (api.py lines 434-462): look the row up, reject
with 403 unless a truthy stored hash verifies the presented
`X-Edit-Token`, otherwise apply the patch and commit. -/
def update_service (L : Libs) (db : List Service) (slug : Str)
    (body : ServiceUpdate) (x_edit_token : Str) :
    Except HttpError Unit × List Service :=
  match get_service_or_404 db slug with
  | .error e => (.error e, db)
  | .ok service =>
    if service.edit_token_hash = none ∨ service.edit_token_hash = some [] then
      (.error ⟨403, "Invalid edit token".toList⟩, db)
    else if !verify_edit_token L x_edit_token (service.edit_token_hash.getD []) then
      (.error ⟨403, "Invalid edit token".toList⟩, db)
    else
      (.ok (), db.map (fun s => if s.id == service.id then applyUpdate body s else s))

/-- `delete_service` (api.py lines 465-479): the same token gate, then
the row is deleted. -/
def delete_service (L : Libs) (db : List Service) (slug : Str)
    (x_edit_token : Str) : Except HttpError Unit × List Service :=
  match get_service_or_404 db slug with
  | .error e => (.error e, db)
  | .ok service =>
    if service.edit_token_hash = none ∨ service.edit_token_hash = some [] then
      (.error ⟨403, "Invalid edit token".toList⟩, db)
    else if !verify_edit_token L x_edit_token (service.edit_token_hash.getD []) then
      (.error ⟨403, "Invalid edit token".toList⟩, db)
    else
      (.ok (), db.filter (fun s => s.id != service.id))

/-! ## Concrete instances used for evaluation -/

/-- A 64-hex payment hash used in concrete runs. -/
def hChars : Str := List.replicate 64 'a'

/-- A concrete serialization for `Libs.enc`: newline-separated fields
(adequate for the newline-free field values of the concrete runs). -/
def testEnc (m : Macaroon) : Str :=
  m.location ++ '\n' :: m.identifier ++ '\n' :: m.signature ++ '\n' ::
    (m.caveats.map (· ++ ['\n'])).flatten

/-- The matching deserializer for `testEnc`; `none` on malformed input. -/
def testDec (s : Str) : Option Macaroon :=
  match s.splitOn '\n' with
  | loc :: ident :: sig :: rest =>
    match rest.getLast? with
    | some [] => some ⟨loc, ident, rest.dropLast, sig⟩
    | _ => none
  | _ => none

/-- A concrete `Libs` instance for closed evaluations: any functions of
the right type are admissible, since the verified code relies on no
property of the primitives beyond determinism. -/
def testLibs : Libs where
  sha256 := fun bs => if bs = [171] then hChars else List.replicate 64 'b'
  hmacFn := fun k m => k ++ m
  enc := testEnc
  dec := testDec

/-- A concrete non-test-mode root key. -/
def tKey : Str := "secret".toList

/-- A concrete `Authorization` header carrying valid L402 credentials:
the macaroon minted for `hChars` and the preimage `ab`, whose modelled
SHA-256 is `hChars`. -/
def tAuth : Str :=
  "L402 ".toList ++ mint_macaroon testLibs tKey hChars ++ ':' :: "ab".toList

/-- A stub `create_invoice`. -/
def tInvoice : Nat → Str → Invoice :=
  fun _ _ => ⟨"a1b2".toList, "lnbc10n1test".toList⟩

/-! ## C1 -/

/-- C1: Replay rejection.  The claim is that after a successful
authorization the guard records the payment hash in the consumed-payment
ledger and rejects a second presentation of the same credentials with
401.  The code never calls `check_and_consume_payment` from
`require_l402` (its `db` parameter is dead), so at the concrete valid
credentials below the first request is authorized with the ledger left
empty, and the identical replay is authorized again instead of being
rejected. -/
theorem c1_replay_not_rejected :
    (require_l402 testLibs tKey (some (some tAuth)) tInvoice 100 none none []).1
        = .ok .authorized ∧
    (require_l402 testLibs tKey (some (some tAuth)) tInvoice 100 none none []).2
        = [] ∧
    (require_l402 testLibs tKey (some (some tAuth)) tInvoice 100 none none
        (require_l402 testLibs tKey (some (some tAuth)) tInvoice 100 none none []).2).1
        = .ok .authorized := by
  decide

/-! ## C2 -/

/-- Splitting `payment_hash = t` at the first `= ` returns `t` whole,
whatever `t` is (the fixed prefix contains the first occurrence). -/
theorem splitOnce_pcav (t : Str) :
    splitOnce ['=', ' '] (pcavMark ++ t) =
      some (['p', 'a', 'y', 'm', 'e', 'n', 't', '_', 'h', 'a', 's', 'h', ' '], t) := by
  simp [pcavMark, splitOnce, List.isPrefixOf]

/-- The caveat scan on the single minted caveat returns the payment hash. -/
theorem extract_caveat_hash_single (t : Str) :
    extract_caveat_hash [pcavMark ++ t] = some t := by
  have hpre : pcavMark.isPrefixOf (pcavMark ++ t) = true :=
    List.isPrefixOf_iff_prefix.mpr (List.prefix_append _ _)
  simp [extract_caveat_hash, hpre, splitOnce_pcav]

/-- A 64-character hex string (the shape of a payment hash). -/
def isHex64 (s : Str) : Bool :=
  s.length == 64 && s.all (fun c => (hexDigit? c).isSome)

/-- C2: Macaroon mint/verify round-trip.  For a 64-hex payment hash `H`
and any hex-decodable preimage, verifying the freshly minted macaroon
(unmodified: the serialization layer round-trips on it) succeeds exactly
when the SHA-256 of the decoded preimage equals `H`. -/
theorem c2_mint_verify_roundtrip (L : Libs) (key H p : Str) (bs : List Nat)
    (hH : isHex64 H = true)
    (hdec : L.dec (mint_macaroon L key H) = some (mkMacaroon L key H))
    (hp : bytes_fromhex p = some bs) :
    verify_l402 L key (mint_macaroon L key H) p
      = .ok (decide (L.sha256 bs = H)) := by
  have hne : H ≠ [] := by
    intro h0
    rw [h0] at hH
    simp [isHex64] at hH
  unfold verify_l402
  rw [hdec, hp]
  simp only [mkMacaroon, extract_caveat_hash_single]
  rw [if_neg hne]
  by_cases hs : L.sha256 bs = H
  · rw [if_neg (by simpa using hs)]
    simp [verifier_ok, mkMacaroon, hs]
  · rw [if_pos hs]
    simp [hs]

/-- C2 witness: the hypotheses hold and the conclusion evaluates at a
concrete key, hash and preimage. -/
theorem c2_witness :
    isHex64 hChars = true ∧ bytes_fromhex ("ab".toList) = some [171] ∧
    verify_l402 testLibs tKey (mint_macaroon testLibs tKey hChars) ("ab".toList)
      = .ok true := by
  refine ⟨by decide, by decide, ?_⟩
  have h := c2_mint_verify_roundtrip testLibs tKey hChars ("ab".toList) [171]
    (by decide) (by decide) (by decide)
  rw [show (decide (testLibs.sha256 [171] = hChars)) = true by decide] at h
  exact h

/-! ## C3 -/

/-- C3 counterexample: the claim says `verify_l402` returns a boolean on
every input and turns a non-hex `preimage_hex` into `false`; but with a
well-formed macaroon and the non-hex preimage `zz`, `bytes.fromhex`
raises `ValueError` outside the try block and the exception escapes. -/
theorem c3_counterexample :
    verify_l402 testLibs tKey (mint_macaroon testLibs tKey hChars) ("zz".toList)
      = .error .valueError := by
  decide

/-- C3 as amended: `verify_l402` returns a boolean (never raises)
whenever the macaroon fails to decode or the preimage is valid hex;
undecodable base64 and undeserializable macaroons yield `ok` values, and
only a deserializable macaroon combined with non-hex `preimage_hex`
raises. -/
theorem c3_verifier_totality_amended (L : Libs) (key mb p : Str)
    (h : L.dec mb = none ∨ (bytes_fromhex p).isSome = true) :
    ∃ b, verify_l402 L key mb p = .ok b := by
  rcases hdec : L.dec mb with _ | mac
  · exact ⟨false, by simp [verify_l402, hdec]⟩
  · rcases hp : bytes_fromhex p with _ | bs
    · rcases h with h0 | h1
      · rw [hdec] at h0
        cases h0
      · rw [hp] at h1
        cases h1
    · rcases h3 : extract_caveat_hash mac.caveats with _ | ph
      · exact ⟨false, by simp [verify_l402, hdec, hp, h3]⟩
      · by_cases h4 : ph = []
        · exact ⟨false, by simp [verify_l402, hdec, hp, h3, h4]⟩
        · by_cases h5 : L.sha256 bs = ph
          · refine ⟨verifier_ok L key mac ph, ?_⟩
            simp only [verify_l402, hdec, hp, h3]
            rw [if_neg h4, if_neg (by simpa using h5)]
          · refine ⟨false, ?_⟩
            simp only [verify_l402, hdec, hp, h3]
            rw [if_neg h4, if_pos h5]

/-- C3 witness for the amended theorem at a concrete undecodable input. -/
theorem c3_witness :
    (testLibs.dec ("junk".toList) = none ∨
      (bytes_fromhex ("ab".toList)).isSome = true) ∧
    ∃ b, verify_l402 testLibs tKey ("junk".toList) ("ab".toList) = .ok b :=
  ⟨Or.inr (by decide),
    c3_verifier_totality_amended testLibs tKey ("junk".toList) ("ab".toList)
      (Or.inr (by decide))⟩

/-! ## C7 -/

/-- The memo the challenge branch passes to `create_invoice`
(`memo or "satring.com premium API access"`). -/
def memoOrDefault (memo : Option Str) : Str :=
  match memo with
  | some m => pyOrStr m ("satring.com premium API access".toList)
  | none => "satring.com premium API access".toList

/-- C7: 402 challenge issuance.  Outside test mode, a guarded request
whose `Authorization` header does not begin with `L402 ` or `LSAT `
(in particular one with no header at all) gets a 402 whose invoice was
created at the operation price (`amount_sats` when given, otherwise
`AUTH_PRICE_SATS`), whose macaroon is minted for that invoice's
payment hash, with header `WWW-Authenticate: L402 macaroon="...",
invoice="..."` and detail `Payment Required`; the ledger is untouched. -/
theorem c7_challenge_402 (L : Libs) (key : Str) (authHeader : Option Str)
    (ci : Nat → Str → Invoice) (priceDefault : Nat) (amount? : Option Nat)
    (memo? : Option Str) (ledger : Ledger)
    (hkey : key ≠ "test-mode".toList)
    (hauth : ("L402 ".toList).isPrefixOf (authHeader.getD []) = false ∧
      ("LSAT ".toList).isPrefixOf (authHeader.getD []) = false) :
    require_l402 L key (some authHeader) ci priceDefault amount? memo? ledger =
      (.ok (.challenge (amount?.getD priceDefault) (memoOrDefault memo?) 402
        ("Payment Required".toList)
        (wwwAuthHeader
          (mint_macaroon L key
            (ci (amount?.getD priceDefault) (memoOrDefault memo?)).payment_hash)
          (ci (amount?.getD priceDefault) (memoOrDefault memo?)).payment_request)),
        ledger) := by
  unfold require_l402
  rw [if_neg hkey]
  simp only [hauth.1, hauth.2, Bool.or_self, Bool.false_eq_true, if_false,
    memoOrDefault]

/-- C7 witness: concrete run of the challenge branch with no
`Authorization` header at the bulk-export price. -/
theorem c7_witness :
    tKey ≠ "test-mode".toList ∧
    require_l402 testLibs tKey (some none) tInvoice 100 (some 1000)
        (some ("satring.com bulk export".toList)) [] =
      (.ok (.challenge 1000 ("satring.com bulk export".toList) 402
        ("Payment Required".toList)
        (wwwAuthHeader (mint_macaroon testLibs tKey ("a1b2".toList))
          ("lnbc10n1test".toList))), []) := by
  refine ⟨by decide, ?_⟩
  have h := c7_challenge_402 testLibs tKey none tInvoice 100 (some 1000)
    (some ("satring.com bulk export".toList)) [] (by decide) ⟨by decide, by decide⟩
  exact h

/-! ## C8 -/

/-- C8 counterexample: the claim says the middleware blocks exactly when
the Origin HOST differs from the BASE_URL host.  With the default
`BASE_URL = https://satring.com` and `Origin: https://SATRING.COM` the
parsed hosts are equal (hostname is lowercased), yet the middleware
compares raw netlocs case-sensitively and blocks with 403. -/
theorem c8_counterexample :
    urlparse_hostname ("https://SATRING.COM".toList) =
      urlparse_hostname ("https://satring.com".toList) ∧
    origin_check ("https://satring.com".toList) ("POST".toList)
        (some ("https://SATRING.COM".toList)) =
      .blocked 403 ("Cross-origin request blocked".toList) := by
  decide

/-- C8 as amended: a request is blocked by the middleware iff its method
is mutating and it carries a nonempty `Origin` header whose NETLOC
(verbatim `host[:port]` part, compared case-sensitively) differs from
the netloc of `BASE_URL`; requests without an `Origin` header are never
blocked. -/
theorem c8_origin_policy_amended (base method : Str) (origin? : Option Str) :
    origin_check base method origin? =
        .blocked 403 ("Cross-origin request blocked".toList) ↔
      (method ∈ ["POST".toList, "PUT".toList, "DELETE".toList, "PATCH".toList] ∧
        ∃ o, origin? = some o ∧ o ≠ [] ∧
          urlparse_netloc o ≠ urlparse_netloc base) := by
  unfold origin_check
  by_cases hm :
      method ∈ ["POST".toList, "PUT".toList, "DELETE".toList, "PATCH".toList]
  · rw [if_pos hm]
    cases origin? with
    | none =>
      exact iff_of_false (by simp) (by rintro ⟨-, o, h, -⟩; cases h)
    | some o =>
      dsimp only
      by_cases ho : o = []
      · rw [if_pos ho]
        refine iff_of_false (by simp) ?_
        rintro ⟨-, o1, h1, hne, -⟩
        rw [Option.some_inj] at h1
        subst h1
        exact hne ho
      · rw [if_neg ho]
        by_cases hn : urlparse_netloc o ≠ urlparse_netloc base
        · rw [if_pos hn]
          exact iff_of_true rfl ⟨hm, o, rfl, ho, hn⟩
        · rw [if_neg hn]
          refine iff_of_false (by simp) ?_
          rintro ⟨-, o1, h1, -, hnn⟩
          rw [Option.some_inj] at h1
          subst h1
          exact hn hnn
  · rw [if_neg hm]
    exact iff_of_false (by simp) (by rintro ⟨h, -⟩; exact hm h)

/-! ## LIKE matching and hostname facts -/

/-- `Char.toLower` is idempotent. -/
theorem char_toLower_idem (c : Char) : c.toLower.toLower = c.toLower := by
  simp only [Char.toLower]
  split
  next h =>
    have hval : (c.toNat + 32).isValidChar := Or.inl (by omega)
    have ht : (Char.ofNat (c.toNat + 32)).toNat = c.toNat + 32 := by
      unfold Char.ofNat
      rw [dif_pos hval]
      rfl
    rw [if_neg (by rw [ht]; omega)]
  next h => rfl

/-- ASCII lowercasing is idempotent. -/
theorem asciiLower_idem (s : Str) : asciiLower (asciiLower s) = asciiLower s := by
  unfold asciiLower
  rw [List.map_map]
  apply List.map_congr_left
  intro c _
  simpa using char_toLower_idem c

/-- On ASCII data, Python lowercasing and the SQLite ASCII fold agree. -/
theorem pyLower_eq_asciiLower (s : Str) (h : isAsciiStr s = true) :
    pyLower s = asciiLower s := by
  induction s with
  | nil => rfl
  | cons c s ih =>
    have hall := List.all_eq_true.mp h
    have hc : c.toNat < 128 := by simpa using hall c (List.mem_cons_self c s)
    have hs : isAsciiStr s = true :=
      List.all_eq_true.mpr fun a ha => hall a (List.mem_cons_of_mem c ha)
    show pyCharLower c ++ pyLower s = Char.toLower c :: asciiLower s
    rw [pyCharLower, if_pos hc, ih hs]
    rfl

/-- A part of an ASCII string is ASCII. -/
theorem isAsciiStr_of_sub (s t : Str) (h : s <:+: t)
    (ht : isAsciiStr t = true) : isAsciiStr s = true :=
  List.all_eq_true.mpr fun a ha =>
    List.all_eq_true.mp ht a (h.sublist.subset ha)

/-- A leading `%` matches when the rest of the pattern matches some
suffix of the text. -/
theorem likeMatch_pct_of_suffix (p t s : Str) (hts : t <:+ s)
    (h : likeMatch p t = true) : likeMatch ('%' :: p) s = true := by
  show (if '%' = '%' then s.tails.any (fun t => likeMatch p t) else _) = true
  rw [if_pos rfl]
  exact List.any_eq_true.mpr ⟨t, (List.mem_tails t s).mpr hts, h⟩

/-- A bare `%` pattern matches every string. -/
theorem likeMatch_pct_nil (s : Str) : likeMatch ['%'] s = true :=
  likeMatch_pct_of_suffix [] [] s List.nil_suffix rfl

/-- A pattern extended on the left with literal text matches that same
text followed by anything the remaining pattern matches (`%` and `_`
appearing in the text also self-match as pattern characters). -/
theorem likeMatch_append (d p s : Str) (h : likeMatch p s = true) :
    likeMatch (d ++ p) (d ++ s) = true := by
  induction d with
  | nil => simpa using h
  | cons c d ih =>
    by_cases hc : c = '%'
    · subst hc
      rw [List.cons_append, List.cons_append]
      exact likeMatch_pct_of_suffix (d ++ p) (d ++ s) ('%' :: (d ++ s))
        (List.suffix_cons _ _) ih
    · rw [List.cons_append, List.cons_append, likeMatch]
      rw [if_neg hc]
      simp [ih]

/-- The pattern `%d%` matches every string containing `d`. -/
theorem likeMatch_of_sub (d s : Str) (h : d <:+: s) :
    likeMatch ('%' :: (d ++ ['%'])) s = true := by
  obtain ⟨a, b, rfl⟩ := h
  have h1 : likeMatch (d ++ ['%']) (d ++ b) = true :=
    likeMatch_append d ['%'] b (likeMatch_pct_nil b)
  have h2 := likeMatch_pct_of_suffix (d ++ ['%']) (d ++ b) (a ++ (d ++ b))
    (List.suffix_append a (d ++ b)) h1
  simpa [List.append_assoc] using h2

/-- The part after a successful `splitOnce` is a suffix of the input. -/
theorem splitOnce_post_suffix (sep : Str) (s pre post : Str)
    (h : splitOnce sep s = some (pre, post)) : post <:+ s := by
  induction s generalizing pre post with
  | nil => cases h
  | cons c rest ih =>
    rw [splitOnce] at h
    by_cases hp : sep.isPrefixOf (c :: rest) = true
    · rw [if_pos hp] at h
      injection h with h1
      have h2 : post = (c :: rest).drop sep.length := congrArg Prod.snd h1.symm
      rw [h2]
      exact List.drop_suffix _ _
    · rw [if_neg hp] at h
      cases h3 : splitOnce sep rest with
      | none => rw [h3] at h; cases h
      | some pr =>
        obtain ⟨pre2, post2⟩ := pr
        rw [h3] at h
        injection h with h1
        have h4 : post = post2 := congrArg Prod.snd h1.symm
        rw [h4]
        exact (ih pre2 post2 h3).trans (List.suffix_cons c rest)

/-- The post-scheme part is a suffix of the URL. -/
theorem parseRest_suffix (url : Str) : parseRest url <:+ url := by
  unfold parseRest
  cases h : splitOnce [':'] url with
  | none => exact List.suffix_refl _
  | some pr =>
    obtain ⟨before, after⟩ := pr
    dsimp only
    split
    · exact splitOnce_post_suffix _ _ _ _ h
    · exact List.suffix_refl _

/-- The netloc is an infix of the URL. -/
theorem netloc_within_url (url : Str) : urlparse_netloc url <:+: url := by
  unfold urlparse_netloc
  split
  next r heq =>
    have h1 : r.takeWhile (fun c => c ≠ '/' && c ≠ '?' && c ≠ '#') <+: r :=
      List.takeWhile_prefix _
    have h2 : r <:+ parseRest url := by
      rw [heq]
      exact (List.suffix_cons '/' r).trans (List.suffix_cons '/' ('/' :: r))
    exact h1.isInfix.trans ((h2.trans (parseRest_suffix url)).isInfix)
  next => exact List.nil_infix

/-- Stripping userinfo keeps a suffix. -/
theorem afterLastAt_suffix (s : Str) : afterLastAt s <:+ s := by
  unfold afterLastAt
  rw [← List.reverse_prefix, List.reverse_reverse]
  exact List.takeWhile_prefix _

/-- The host part is an infix of the hostinfo. -/
theorem hostOf_within (h : Str) : hostOf h <:+: h := by
  unfold hostOf
  split
  · exact (List.takeWhile_prefix _).isInfix.trans
      (((List.drop_suffix _ _).trans (List.dropWhile_suffix _)).isInfix)
  · exact (List.takeWhile_prefix _).isInfix

/-- The raw (pre-lowercasing) host is an infix of the URL. -/
theorem rawHost_within (url : Str) : rawHost url <:+: url :=
  (hostOf_within _).trans ((afterLastAt_suffix _).isInfix.trans (netloc_within_url url))

/-- The ILIKE prefilter `%domain%` accepts every ASCII URL whose
extracted domain equals `domain`: on ASCII data the Python fold and the
SQLite fold agree, the domain is the fold of a contiguous substring of
the URL, so it occurs in the folded URL.  (Without the ASCII
restriction this fails: Python lowers U+212A to `k` while SQLite
leaves it unchanged, see the C10 counterexample.) -/
theorem ilike_of_extract_domain (v d : Str) (hv : isAsciiStr v = true)
    (hd : extract_domain v = d) :
    ilike v ('%' :: (d ++ ['%'])) = true := by
  unfold ilike
  have hraw : isAsciiStr (rawHost v) = true :=
    isAsciiStr_of_sub (rawHost v) v (rawHost_within v) hv
  have hda : d = asciiLower (rawHost v) := by
    rw [← hd]
    exact pyLower_eq_asciiLower (rawHost v) hraw
  have h1 : asciiLower ('%' :: (d ++ ['%'])) = '%' :: (asciiLower d ++ ['%']) := by
    simp [asciiLower]
  have h2 : asciiLower d = d := by
    rw [hda]
    exact asciiLower_idem (rawHost v)
  rw [h1, h2]
  apply likeMatch_of_sub
  rw [hda]
  exact (rawHost_within v).map Char.toLower

/-! ## C10 -/

/-- The naive same-domain filter, as the claim words it: keep exactly
the services whose extracted domain equals the extracted domain of `u`. -/
def same_domain_naive (db : List Service) (url : Str) : List Service :=
  db.filter (fun s => extract_domain s.url == extract_domain url)

/-- A row whose URL hostname contains U+212A KELVIN SIGN: Python
lowercases it to `k`, so the parsed hostname is `k.com`. -/
def svcK : Service :=
  { id := 5, slug := "kk".toList,
    url := "http://".toList ++ '\u212A' :: ".com/b".toList,
    status := "live".toList, edit_token_hash := some ("h".toList),
    domain_challenge := none, domain_challenge_expires_at := none,
    domain_verified := false, name := "KHost".toList, pricing_sats := 0 }

/-- C10 counterexample: the claimed equivalence fails because the two
case foldings differ outside ASCII.  The hostname of `svcK.url`
contains U+212A, which Python `str.lower` folds to `k`, so its
extracted domain equals that of `http://k.com/a`; but SQLite's LIKE
folds ASCII only and leaves U+212A unchanged, so the broad `%k.com%`
prefilter rejects the URL and `get_same_domain_services` drops a row
that the naive hostname-equality filter keeps. -/
theorem c10_counterexample :
    extract_domain svcK.url = extract_domain ("http://k.com/a".toList) ∧
    extract_domain ("http://k.com/a".toList) ≠ [] ∧
    get_same_domain_services [svcK] ("http://k.com/a".toList) = [] ∧
    same_domain_naive [svcK] ("http://k.com/a".toList) = [svcK] := by
  decide

/-- C10 as amended: over database states whose stored service URLs are
ASCII — where Python's lowercasing and SQLite's ASCII LIKE fold agree —
the LIKE prefilter followed by the exact hostname post-filter returns
exactly the naive hostname-equality filter; the prefilter then never
drops a service whose URL hostname equals the domain. -/
theorem c10_refinement_ascii (db : List Service) (u : Str)
    (hascii : ∀ s ∈ db, isAsciiStr s.url = true)
    (h : extract_domain u ≠ []) :
    get_same_domain_services db u = same_domain_naive db u := by
  unfold get_same_domain_services same_domain_naive
  rw [if_neg h]
  rw [List.filter_filter]
  apply List.filter_congr
  intro s hs0
  by_cases hs : extract_domain s.url = extract_domain u
  · simp [hs,
      ilike_of_extract_domain s.url (extract_domain u) (hascii s hs0) hs]
  · simp [hs]

/-- Concrete rows for closed evaluations: two listings on
`foo.example` (one live, one purged), and one on `bar.example`. -/
def svcA : Service :=
  { id := 1, slug := "a".toList, url := "https://foo.example/a".toList,
    status := "live".toList, edit_token_hash := some ("oldhash".toList),
    domain_challenge := some hChars, domain_challenge_expires_at := some 100,
    domain_verified := false, name := "A".toList, pricing_sats := 0 }

def svcP : Service :=
  { id := 2, slug := "p".toList, url := "https://foo.example/p".toList,
    status := purgedLit, edit_token_hash := none,
    domain_challenge := none, domain_challenge_expires_at := none,
    domain_verified := false, name := "P".toList, pricing_sats := 0 }

def svcB : Service :=
  { id := 3, slug := "b".toList, url := "https://bar.example/".toList,
    status := "live".toList, edit_token_hash := some ("otherhash".toList),
    domain_challenge := none, domain_challenge_expires_at := none,
    domain_verified := false, name := "B".toList, pricing_sats := 0 }

/-- C10 witness: concrete all-ASCII database and URL. -/
theorem c10_witness :
    (∀ s ∈ [svcA, svcP, svcB], isAsciiStr s.url = true) ∧
    extract_domain ("https://foo.example/x".toList) ≠ [] ∧
    get_same_domain_services [svcA, svcP, svcB] ("https://foo.example/x".toList) =
      same_domain_naive [svcA, svcP, svcB] ("https://foo.example/x".toList) :=
  ⟨by decide, by decide,
    c10_refinement_ascii [svcA, svcP, svcB] ("https://foo.example/x".toList)
      (by decide) (by decide)⟩

/-! ## Reaching the fetch in recover-verify -/

/-- A successful row lookup. -/
theorem get_service_or_404_eq (db : List Service) (slug : Str) (service : Service)
    (hfind : db.find? (fun s => s.slug == slug && s.status != purgedLit)
      = some service) :
    get_service_or_404 db slug = .ok service := by
  unfold get_service_or_404
  rw [hfind]

/-- An unexpired nonempty challenge passes the activity guard. -/
theorem challengeInactive_false (s : Service) (ch : Str) (exp now : Nat)
    (hch : s.domain_challenge = some ch) (hch2 : ch ≠ [])
    (hexp : s.domain_challenge_expires_at = some exp) (hnow : now < exp) :
    challengeInactive s now = false := by
  rcases ch with _ | ⟨c, cs⟩
  · exact absurd rfl hch2
  · simp [challengeInactive, hch, hexp]
    omega

/-! ## C5 -/

/-- C5: Challenge-mismatch atomicity.  When the handler reaches the
fetch (active challenge, public hostname) and the fetched body stripped
of surrounding whitespace differs from the stored challenge, the
request fails with 403 `Challenge code does not match` and the database
is returned unchanged — no listing field is modified. -/
theorem c5_challenge_mismatch (L : Libs) (env : RecoverEnv) (db : List Service)
    (slug : Str) (service : Service) (ch : Str) (exp : Nat) (body : Str)
    (hfind : db.find? (fun s => s.slug == slug && s.status != purgedLit)
      = some service)
    (hch : service.domain_challenge = some ch) (hch2 : ch ≠ [])
    (hexp : service.domain_challenge_expires_at = some exp)
    (hnow : env.now < exp)
    (hhost : extract_domain service.url ≠ [])
    (hpub : env.is_public_hostname (extract_domain service.url) = true)
    (hfetch : env.fetchBody
      (domain_root service.url ++ "/.well-known/satring-verify".toList)
      = some body)
    (hmis : pyStrip body ≠ ch) :
    api_recover_verify L env db slug =
      ⟨.error ⟨403, "Challenge code does not match".toList⟩, db, true⟩ := by
  unfold api_recover_verify
  rw [get_service_or_404_eq db slug service hfind]
  dsimp only
  rw [challengeInactive_false service ch exp env.now hch hch2 hexp hnow]
  simp only [Bool.false_eq_true, if_false, hhost, hpub, decide_False, Bool.not_true,
    Bool.or_false, Bool.false_or, hfetch, hch, Option.getD_some]
  rw [if_pos hmis]

/-! ## C6 -/

/-- C6: SSRF check precedes any outbound request.  With an active
challenge, if the hostname is empty or the `is_public_hostname` oracle
(DNS resolution) reports it private/unresolvable, recover-verify
returns 400 with the private-address detail, the database is unchanged,
and no outbound HTTP request is issued (`outboundRequest = false`): the
reserved-address check is evaluated strictly before the fetch. -/
theorem c6_ssrf_before_fetch (L : Libs) (env : RecoverEnv) (db : List Service)
    (slug : Str) (service : Service) (ch : Str) (exp : Nat)
    (hfind : db.find? (fun s => s.slug == slug && s.status != purgedLit)
      = some service)
    (hch : service.domain_challenge = some ch) (hch2 : ch ≠ [])
    (hexp : service.domain_challenge_expires_at = some exp)
    (hnow : env.now < exp)
    (hpriv : extract_domain service.url = [] ∨
      env.is_public_hostname (extract_domain service.url) = false) :
    api_recover_verify L env db slug =
      ⟨.error ⟨400, ("Cannot verify domain: hostname resolves to a private " ++
        "or unreachable address").toList⟩, db, false⟩ := by
  unfold api_recover_verify
  rw [get_service_or_404_eq db slug service hfind]
  dsimp only
  rw [challengeInactive_false service ch exp env.now hch hch2 hexp hnow]
  simp only [Bool.false_eq_true, if_false]
  have hcond : (decide (extract_domain service.url = []) ||
      !env.is_public_hostname (extract_domain service.url)) = true := by
    rcases hpriv with h0 | h0
    · simp [h0]
    · simp [h0]
  rw [hcond]
  rfl

/-- A concrete happy-path environment: everything public, the
well-known fetch returns the challenge wrapped in whitespace. -/
def tEnv : RecoverEnv :=
  { is_public_hostname := fun _ => true
    fetchBody := fun _ => some (' ' :: (hChars ++ ['\n']))
    new_token := "tok".toList
    now := 50 }

/-- The happy-path environment but with a fetch returning `wrong`. -/
def tEnvWrong : RecoverEnv :=
  { tEnv with fetchBody := fun _ => some ("wrong".toList) }

/-- The happy-path environment but with DNS reporting every hostname
private/unresolvable. -/
def tEnvPriv : RecoverEnv :=
  { tEnv with is_public_hostname := fun _ => false }

/-! ## C4 -/

/-- C4 counterexample: a successful recover-verify on live listing `a`
(domain `foo.example`) also rewrites the PURGED same-domain listing `p`:
its `edit_token_hash` becomes the hash of the fresh token and its
`domain_verified` becomes true, so the set of updated listings is not
restricted to non-purged ones as the claim states. -/
theorem c4_counterexample :
    svcP.status = purgedLit ∧
    (api_recover_verify testLibs tEnv [svcA, svcP, svcB] ("a".toList)).response =
      .ok ⟨"tok".toList, ["a".toList, "p".toList]⟩ ∧
    (api_recover_verify testLibs tEnv [svcA, svcP, svcB] ("a".toList)).db.get? 1 =
      some { svcP with edit_token_hash := some (List.replicate 64 'b'),
                       domain_verified := true } := by
  decide

/-- C4 as amended: after a successful recover-verify on listing L, in a
database whose stored URLs are ASCII (where the LIKE prefilter is
exhaustive — outside ASCII it can drop same-domain rows, see the C10
counterexample), EVERY listing whose effective domain equals L's — the
purged ones included — has its `edit_token_hash` set to the hash of the
fresh token and `domain_verified` set to true (L itself additionally
has its challenge cleared), and every listing of any other domain is
left unchanged. -/
theorem c4_propagation_amended (L : Libs) (env : RecoverEnv) (db : List Service)
    (slug : Str) (service : Service) (ch : Str) (exp : Nat) (body : Str)
    (hascii : ∀ s ∈ db, isAsciiStr s.url = true)
    (hids : (db.map (fun s => s.id)).Nodup)
    (hfind : db.find? (fun s => s.slug == slug && s.status != purgedLit)
      = some service)
    (hch : service.domain_challenge = some ch) (hch2 : ch ≠ [])
    (hexp : service.domain_challenge_expires_at = some exp)
    (hnow : env.now < exp)
    (hhost : extract_domain service.url ≠ [])
    (hpub : env.is_public_hostname (extract_domain service.url) = true)
    (hfetch : env.fetchBody
      (domain_root service.url ++ "/.well-known/satring-verify".toList)
      = some body)
    (hbody : pyStrip body = ch) :
    api_recover_verify L env db slug =
      ⟨.ok ⟨env.new_token, (get_same_domain_services db service.url).map (·.slug)⟩,
        db.map (fun s =>
          if extract_domain s.url = extract_domain service.url then
            (if s.id = service.id then
              { s with edit_token_hash := some (hash_token L env.new_token),
                       domain_verified := true, domain_challenge := none,
                       domain_challenge_expires_at := none }
             else
              { s with edit_token_hash := some (hash_token L env.new_token),
                       domain_verified := true })
          else s),
        true⟩ := by
  have hmemsvc : service ∈ db := List.mem_of_find?_eq_some hfind
  have hinj := List.inj_on_of_nodup_map hids
  unfold api_recover_verify
  rw [get_service_or_404_eq db slug service hfind]
  dsimp only
  rw [challengeInactive_false service ch exp env.now hch hch2 hexp hnow]
  simp only [Bool.false_eq_true, if_false, hhost, hpub, decide_False, Bool.not_true,
    Bool.or_false, Bool.false_or, hfetch, hch, Option.getD_some]
  rw [if_neg (by rw [hbody]; exact fun hcon => hcon rfl)]
  congr 1
  apply List.map_congr_left
  intro s hs
  by_cases hd : extract_domain s.url = extract_domain service.url
  · have hmem : s ∈ get_same_domain_services db service.url := by
      unfold get_same_domain_services
      rw [if_neg hhost]
      refine List.mem_filter.mpr ⟨List.mem_filter.mpr ⟨hs, ?_⟩, ?_⟩
      · exact ilike_of_extract_domain s.url (extract_domain service.url)
          (hascii s hs) hd
      · simpa using hd
    have hcont : (get_same_domain_services db service.url).contains s = true := by
      simpa using hmem
    rw [hcont]
    simp only [if_true]
    by_cases hid : s.id = service.id
    · rw [if_pos hd, if_pos hid]
      have hidb : (s.id == service.id) = true := by simpa using hid
      rw [hidb]
      rfl
    · rw [if_pos hd, if_neg hid]
      have hidb : (s.id == service.id) = false := by simpa using hid
      rw [hidb]
      rfl
  · have hncont : (get_same_domain_services db service.url).contains s = false := by
      rw [Bool.eq_false_iff]
      intro hcon
      have hmem : s ∈ get_same_domain_services db service.url := by simpa using hcon
      unfold get_same_domain_services at hmem
      rw [if_neg hhost] at hmem
      have := (List.mem_filter.mp hmem).2
      exact hd (by simpa using this)
    rw [hncont]
    have hid : ¬ s.id = service.id := by
      intro hcon
      exact hd (by rw [hinj hs hmemsvc hcon])
    have hidb : (s.id == service.id) = false := by simpa using hid
    rw [if_neg hd]
    simp only [Bool.false_eq_true, if_false, hidb]

/-- C5 witness: stub the well-known fetch to return `wrong`; the verify
on listing `a` returns 403 and both same-domain rows keep their tokens. -/
theorem c5_witness :
    pyStrip ("wrong".toList) ≠ hChars ∧
    api_recover_verify testLibs tEnvWrong [svcA, svcP, svcB] ("a".toList) =
      ⟨.error ⟨403, "Challenge code does not match".toList⟩,
        [svcA, svcP, svcB], true⟩ :=
  ⟨by decide,
    c5_challenge_mismatch testLibs tEnvWrong [svcA, svcP, svcB] ("a".toList) svcA
      hChars 100 ("wrong".toList) (by decide) (by decide) (by decide) (by decide)
      (by decide) (by decide) (by decide) (by decide) (by decide)⟩

/-- C6 witness: with DNS reporting the hostname private, the verify on
listing `a` returns the 400 private-address detail with no outbound
request. -/
theorem c6_witness :
    (extract_domain svcA.url = [] ∨
      tEnvPriv.is_public_hostname (extract_domain svcA.url) = false) ∧
    api_recover_verify testLibs tEnvPriv [svcA, svcP, svcB] ("a".toList) =
      ⟨.error ⟨400, ("Cannot verify domain: hostname resolves to a private " ++
        "or unreachable address").toList⟩, [svcA, svcP, svcB], false⟩ :=
  ⟨Or.inr (by decide),
    c6_ssrf_before_fetch testLibs tEnvPriv [svcA, svcP, svcB] ("a".toList) svcA
      hChars 100 (by decide) (by decide) (by decide) (by decide) (by decide)
      (Or.inr (by decide))⟩

/-- C4 witness: the amended propagation theorem evaluated on the
concrete three-row database. -/
theorem c4_witness :
    (∀ s ∈ [svcA, svcP, svcB], isAsciiStr s.url = true) ∧
    (([svcA, svcP, svcB].map (fun s => s.id)).Nodup) ∧
    api_recover_verify testLibs tEnv [svcA, svcP, svcB] ("a".toList) =
      ⟨.ok ⟨tEnv.new_token,
          (get_same_domain_services [svcA, svcP, svcB] svcA.url).map (·.slug)⟩,
        [svcA, svcP, svcB].map (fun s =>
          if extract_domain s.url = extract_domain svcA.url then
            (if s.id = svcA.id then
              { s with edit_token_hash := some (hash_token testLibs tEnv.new_token),
                       domain_verified := true, domain_challenge := none,
                       domain_challenge_expires_at := none }
             else
              { s with edit_token_hash := some (hash_token testLibs tEnv.new_token),
                       domain_verified := true })
          else s),
        true⟩ :=
  ⟨by decide, by decide,
    c4_propagation_amended testLibs tEnv [svcA, svcP, svcB] ("a".toList) svcA
      hChars 100 (' ' :: (hChars ++ ['\n'])) (by decide) (by decide) (by decide)
      (by decide) (by decide) (by decide) (by decide) (by decide) (by decide)
      (by decide) (by decide)⟩

/-! ## C9 -/

/-- C9: Tombstone write-lockout.  On a non-purged row whose stored
`edit_token_hash` is NULL or empty, PATCH and DELETE reject with 403
`Invalid edit token` for every presented `X-Edit-Token`, and the
database is unchanged: the gate short-circuits on the falsy stored hash
before any token comparison, so no token can authorize the write. -/
theorem c9_tombstone_lockout (L : Libs) (db : List Service) (slug token : Str)
    (body : ServiceUpdate) (service : Service)
    (hfind : db.find? (fun s => s.slug == slug && s.status != purgedLit)
      = some service)
    (hhash : service.edit_token_hash = none ∨ service.edit_token_hash = some []) :
    update_service L db slug body token =
        (.error ⟨403, "Invalid edit token".toList⟩, db) ∧
    delete_service L db slug token =
        (.error ⟨403, "Invalid edit token".toList⟩, db) := by
  constructor
  · unfold update_service
    rw [get_service_or_404_eq db slug service hfind]
    dsimp only
    rw [if_pos hhash]
  · unfold delete_service
    rw [get_service_or_404_eq db slug service hfind]
    dsimp only
    rw [if_pos hhash]

/-- A live row with no stored edit-token hash. -/
def svcT : Service :=
  { id := 4, slug := "t".toList, url := "https://foo.example/t".toList,
    status := "live".toList, edit_token_hash := none,
    domain_challenge := none, domain_challenge_expires_at := none,
    domain_verified := false, name := "T".toList, pricing_sats := 0 }

/-- C9 witness: concrete hashless row and an arbitrary token. -/
theorem c9_witness :
    ([svcT].find? (fun s => s.slug == "t".toList && s.status != purgedLit)
      = some svcT) ∧
    (svcT.edit_token_hash = none ∨ svcT.edit_token_hash = some []) ∧
    update_service testLibs [svcT] ("t".toList) ⟨none, none⟩ ("anytoken".toList) =
      (.error ⟨403, "Invalid edit token".toList⟩, [svcT]) ∧
    delete_service testLibs [svcT] ("t".toList) ("anytoken".toList) =
      (.error ⟨403, "Invalid edit token".toList⟩, [svcT]) :=
  ⟨by decide, Or.inl rfl,
    (c9_tombstone_lockout testLibs [svcT] ("t".toList) ("anytoken".toList)
      ⟨none, none⟩ svcT (by decide) (Or.inl rfl)).1,
    (c9_tombstone_lockout testLibs [svcT] ("t".toList) ("anytoken".toList)
      ⟨none, none⟩ svcT (by decide) (Or.inl rfl)).2⟩

end Satring
